import Mathlib

/-!
Verification of the link-rewriting / sanitization pipeline of the browsing
proxy (proxy-backend/src/server.ts).

Strings are modelled as lists of byte values (`List Nat`, each entry < 256 on
real inputs); all string literals appearing in the source are ASCII, so byte
values and code points coincide.  Platform primitives that are not part of the
repository (the WHATWG `URL` resolver, the JSDOM HTML parser, the HTTP fetch)
are abstracted as function parameters; repository code is translated directly.
-/

namespace Proxy

/-- Byte representation of an ASCII string literal. -/
def strBytes (s : String) : List Nat := s.data.map Char.toNat

/-! ### Percent encoding (JavaScript encodeURIComponent / percent-decoding) -/

/-- Upper-case hexadecimal digit character for a value < 16
(encodeURIComponent produces upper-case escapes). -/
def hexDigit (n : Nat) : Nat := if n < 10 then 48 + n else 55 + n

/-- Value of a hexadecimal digit character, `none` if the byte is not a hex
digit. -/
def hexVal (c : Nat) : Option Nat :=
  if 48 ≤ c ∧ c ≤ 57 then some (c - 48)
  else if 65 ≤ c ∧ c ≤ 70 then some (c - 55)
  else if 97 ≤ c ∧ c ≤ 102 then some (c - 87)
  else none

/-- The bytes `encodeURIComponent` leaves unescaped:
`A-Z a-z 0-9 - _ . ! ~ * ' ( )` (ECMA-262, table of unreserved characters). -/
def isUnreservedByte (b : Nat) : Bool :=
  (65 ≤ b && b ≤ 90) || (97 ≤ b && b ≤ 122) || (48 ≤ b && b ≤ 57) ||
  b == 45 || b == 95 || b == 46 || b == 33 || b == 126 || b == 42 ||
  b == 39 || b == 40 || b == 41

/-- JavaScript `encodeURIComponent` over the UTF-8 bytes of a string:
unreserved bytes are kept, every other byte becomes `%XY`. -/
def encodeURIComponent : List Nat → List Nat
  | [] => []
  | b :: rest =>
    (if isUnreservedByte b then [b]
     else [37, hexDigit (b / 16), hexDigit (b % 16)]) ++ encodeURIComponent rest

/-- Percent-decoding: each `%XY` becomes the byte `16*X+Y`; a dangling or
malformed escape makes the whole decode fail. -/
def percentDecode : List Nat → Option (List Nat)
  | [] => some []
  | b :: rest =>
    if b = 37 then
      match rest with
      | h :: l :: rest2 =>
        match hexVal h, hexVal l with
        | some hv, some lv => (percentDecode rest2).map (fun t => (16 * hv + lv) :: t)
        | _, _ => none
      | _ => none
    else (percentDecode rest).map (fun t => b :: t)

/-! ### Small string utilities -/

/-- Test whether the first list is an initial segment of the second. -/
def leadsWith : List Nat → List Nat → Bool
  | [], _ => true
  | _ :: _, [] => false
  | p :: ps, b :: bs => p == b && leadsWith ps bs

/-- Substring test, modelling JavaScript `String.prototype.includes`. -/
def containsSub (needle : List Nat) : List Nat → Bool
  | [] => leadsWith needle []
  | b :: rest => leadsWith needle (b :: rest) || containsSub needle rest

/-! ### The dangerous-scheme test of rewriteAttr -/

/-- ASCII whitespace, modelling the regex class in the source test
(the model restricts the input alphabet to one byte per character). -/
def isWsByte (b : Nat) : Bool :=
  b == 32 || b == 9 || b == 10 || b == 11 || b == 12 || b == 13

/-- Drop the maximal whitespace run at the front of the value. -/
def dropWs : List Nat → List Nat
  | [] => []
  | b :: rest => if isWsByte b then dropWs rest else b :: rest

/-- ASCII lower-casing of a byte. -/
def toLowerByte (b : Nat) : Nat := if 65 ≤ b ∧ b ≤ 90 then b + 32 else b

/-- Model of the source test for dangerous schemes applied to the raw
attribute value: optional leading whitespace followed by a case-insensitive
`javascript:` or `data:` scheme. -/
def hasDangerScheme (val : List Nat) : Bool :=
  let s := (dropWs val).map toLowerByte
  leadsWith (strBytes "javascript:") s || leadsWith (strBytes "data:") s

/-! ### rewriteAttr -/

/-- The proxy endpoint path and query key prepended to every rewritten
reference. -/
def proxyPath : List Nat := strBytes "/proxy_backend?url="

/-- A resolver maps a base URL and a (possibly relative) reference to the
resolved absolute URL, or `none` on parse failure.  The source function
`resolveAbsoluteUrl` wraps the platform URL constructor in try/catch, so
failure is only ever reported through the `none` result; the model keeps the
resolver abstract. -/
abbrev Resolver := List Nat → List Nat → Option (List Nat)

/-- Model of the source helper `rewriteAttr`, as the transformation of one
attribute value: empty values are skipped, then the value is resolved, then
the dangerous-scheme test is applied, and only then the value is replaced by
the proxy redirect URL. -/
def rewriteAttr (resolve : Resolver) (baseUrl val : List Nat) : List Nat :=
  if val = [] then val
  else
    match resolve baseUrl val with
    | none => val
    | some abs =>
      if hasDangerScheme val then val
      else proxyPath ++ encodeURIComponent abs

/-! ### Document trees (post-parse model of the JSDOM document) -/

/-- A parsed HTML node: an element with a tag name, an attribute list
(attribute names are unique after parsing) and children, or a text node. -/
inductive Node where
  | element (tag : List Nat) (attrs : List (List Nat × List Nat)) (children : List Node)
  | text (s : List Nat)

/-- Model of `getAttribute`: the value of the first attribute with the given
name. -/
def lookupAttr (name : List Nat) : List (List Nat × List Nat) → Option (List Nat)
  | [] => none
  | (n, v) :: rest => if n = name then some v else lookupAttr name rest

/-- Model of `setAttribute`: update of the (unique) attribute with the given
name; attributes not present are left alone, matching the source selectors
`a[href]` etc., which only pick elements that carry the attribute. -/
def updateAttr (name : List Nat) (f : List Nat → List Nat) :
    List (List Nat × List Nat) → List (List Nat × List Nat)
  | [] => []
  | (n, v) :: rest =>
    if n = name then (n, f v) :: rest else (n, v) :: updateAttr name f rest

/-- The five element/attribute targets of the source's querySelectorAll
passes (`a[href]`, `img[src]`, `script[src]`, `link[href]`, `form[action]`).
The five tags are pairwise distinct, so the five passes touch disjoint sets
of elements and can be modelled as one table lookup per element. -/
def attrForTag (tag : List Nat) : Option (List Nat) :=
  if tag = strBytes "a" then some (strBytes "href")
  else if tag = strBytes "img" then some (strBytes "src")
  else if tag = strBytes "script" then some (strBytes "src")
  else if tag = strBytes "link" then some (strBytes "href")
  else if tag = strBytes "form" then some (strBytes "action")
  else none

/-- Attribute rewriting of one element, per the target table. -/
def rewriteElemAttrs (resolve : Resolver) (baseUrl tag : List Nat)
    (attrs : List (List Nat × List Nat)) : List (List Nat × List Nat) :=
  match attrForTag tag with
  | none => attrs
  | some a => updateAttr a (rewriteAttr resolve baseUrl) attrs

/-- The link-rewriting pass of `rewriteHtml` over a forest of nodes. -/
def rewriteList (resolve : Resolver) (baseUrl : List Nat) : List Node → List Node
  | [] => []
  | .text s :: rest => .text s :: rewriteList resolve baseUrl rest
  | .element t a k :: rest =>
    .element t (rewriteElemAttrs resolve baseUrl t a) (rewriteList resolve baseUrl k)
      :: rewriteList resolve baseUrl rest

/-- The selector `meta[http-equiv="Content-Security-Policy"]`. -/
def isCSPMeta (tag : List Nat) (attrs : List (List Nat × List Nat)) : Bool :=
  tag = strBytes "meta" &&
  lookupAttr (strBytes "http-equiv") attrs == some (strBytes "Content-Security-Policy")

/-- The CSP-meta removal pass of `rewriteHtml` (`m.remove()` over a static
node list: every matching element, at any depth, is detached). -/
def removeCSP : List Node → List Node
  | [] => []
  | .text s :: rest => .text s :: removeCSP rest
  | .element t a k :: rest =>
    if isCSPMeta t a then removeCSP rest
    else .element t a (removeCSP k) :: removeCSP rest

/-- Does a forest contain (at any depth) a CSP meta element? -/
def hasCSPList : List Node → Bool
  | [] => false
  | .text _ :: rest => hasCSPList rest
  | .element t a k :: rest => isCSPMeta t a || hasCSPList k || hasCSPList rest

/-! ### Serialization (documentElement.outerHTML) -/

/-- Text-node escaping of the HTML serializer. -/
def escTextByte (b : Nat) : List Nat :=
  if b = 38 then strBytes "&amp;"
  else if b = 60 then strBytes "&lt;"
  else if b = 62 then strBytes "&gt;"
  else [b]

/-- Attribute-value escaping of the HTML serializer. -/
def escAttrByte (b : Nat) : List Nat :=
  if b = 38 then strBytes "&amp;"
  else if b = 34 then strBytes "&quot;"
  else [b]

/-- One serialized attribute: space, name, `="`, escaped value, `"`. -/
def serAttrPair (p : List Nat × List Nat) : List Nat :=
  32 :: p.1 ++ [61, 34] ++ p.2.flatMap escAttrByte ++ [34]

/-- HTML serialization of a forest of nodes. -/
def serializeList : List Node → List Nat
  | [] => []
  | .text s :: rest => s.flatMap escTextByte ++ serializeList rest
  | .element t a k :: rest =>
    60 :: t ++ a.flatMap serAttrPair ++ [62] ++ serializeList k
      ++ (60 :: 47 :: t ++ [62]) ++ serializeList rest

/-! ### The document and rewriteHtml -/

/-- A parsed document: the DOCTYPE declaration and any comment content
outside the root element, plus the root element (`documentElement`). -/
structure Document where
  doctype : Option (List Nat)
  beforeRoot : List (List Nat)
  root : Node
  afterRoot : List (List Nat)

/-- The document tree produced by `rewriteHtml` before serialization:
the five rewriting passes followed by the CSP-meta removal pass, applied to
the root element. -/
def rewrittenNodes (resolve : Resolver) (baseUrl : List Nat) (d : Document) :
    List Node :=
  removeCSP (rewriteList resolve baseUrl [d.root])

/-- Model of `rewriteHtml` after parsing: mutate the document tree, then
return `doc.documentElement.outerHTML` — the serialization of the root
element only. -/
def rewriteHtmlDoc (resolve : Resolver) (baseUrl : List Nat) (d : Document) :
    List Nat :=
  serializeList (rewrittenNodes resolve baseUrl d)

/-! ### Host allowlist -/

/-- Source function `isAllowedHost`, with the startup-loaded allowlist made
an explicit argument (in the source it is the module constant
`ALLOWED_HOSTS`, already split on commas and with empty entries removed). -/
def isAllowedHost (allowed : List (List Nat)) (hostname : List Nat) : Bool :=
  if allowed.length = 0 then true else allowed.contains hostname

/-! ### Sanitizer -/

/-- Modelled from the spec: the Content Sanitizer (DOMPurify in the source,
an external dependency whose code is not part of this repository) removes
"script-executing constructs and any markup capable of triggering navigation
or code execution", e.g. dangerous elements such as script bodies. -/
def dangerousTag (t : List Nat) : Bool :=
  t = strBytes "script" || t = strBytes "iframe" ||
  t = strBytes "object" || t = strBytes "embed"

/-- Modelled from the spec: inline event-handler attributes (`on*`). -/
def isEventAttrName (name : List Nat) : Bool :=
  leadsWith (strBytes "on") name

/-- Modelled from the spec: drop inline event-handler attributes, keep the
safe attributes byte-for-byte. -/
def cleanAttrs (attrs : List (List Nat × List Nat)) :
    List (List Nat × List Nat) :=
  attrs.filter (fun p => ! isEventAttrName p.1)

/-- Modelled from the spec: the Content Sanitizer over a parsed document
forest — dangerous elements are removed with their subtrees, event-handler
attributes are dropped, and all other structure and text is preserved
byte-for-byte.  (DOMPurify parses the string, sanitizes the tree, and
re-serializes; the parse/serialize halves are platform code, so the claim is
settled at the tree level.) -/
def sanitizeList : List Node → List Node
  | [] => []
  | .text s :: rest => .text s :: sanitizeList rest
  | .element t a k :: rest =>
    if dangerousTag t then sanitizeList rest
    else .element t (cleanAttrs a) (sanitizeList k) :: sanitizeList rest

/-! ### The proxy fetch orchestrator (GET /proxy_backend) -/

/-- The part of a parsed URL the endpoint consults (`parsed.hostname`). -/
structure ParsedUrl where
  hostname : List Nat

/-- The upstream response as node-fetch delivers it: the final resolved URL
after `redirect: follow`, the content-type header (`none` when absent), and
the body bytes. -/
structure UpstreamResponse where
  url : List Nat
  contentType : Option (List Nat)
  body : List Nat

/-- Result of the upstream fetch: a response, or a thrown network error. -/
inductive FetchResult where
  | ok (r : UpstreamResponse)
  | connectionError

/-- The HTTP response the endpoint produces. -/
structure ProxyResponse where
  status : Nat
  contentType : Option (List Nat)
  xFrameOptions : Option (List Nat)
  body : List Nat

/-- The default content type: `upstream.headers.get(..) || defaultCT` — a
missing header (`null`) and an empty header value are both falsy in
JavaScript and fall back to the default. -/
def effectiveContentType (ct : Option (List Nat)) : List Nat :=
  match ct with
  | none => strBytes "application/octet-stream"
  | some s => if s = [] then strBytes "application/octet-stream" else s

/-- Model of the `GET /proxy_backend` handler.  The platform pieces — URL
parsing, the network fetch, DOMPurify's sanitize, and `rewriteHtml` seen as a
string-to-string function — are explicit function parameters; the handler
logic is translated line by line.  The second component records whether the
upstream fetch was attempted.  `urlParam = none` models an absent `url` query
parameter; note JavaScript's `if (!target)` also treats the empty string as
missing. -/
def proxyBackend (parse : List Nat → Option ParsedUrl)
    (fetchUpstream : List Nat → FetchResult)
    (sanitize : List Nat → List Nat)
    (rewriteFn : List Nat → List Nat → List Nat)
    (allowedHosts : List (List Nat))
    (urlParam : Option (List Nat)) : ProxyResponse × Bool :=
  match urlParam with
  | none => (⟨400, none, none, strBytes "missing url"⟩, false)
  | some target =>
    if target = [] then (⟨400, none, none, strBytes "missing url"⟩, false)
    else
      match parse target with
      | none => (⟨400, none, none, strBytes "invalid url"⟩, false)
      | some parsed =>
        if ! isAllowedHost allowedHosts parsed.hostname then
          (⟨403, none, none, strBytes "host not allowed"⟩, false)
        else
          match fetchUpstream target with
          | .connectionError => (⟨502, none, none, strBytes "fetch error"⟩, true)
          | .ok r =>
            let contentType := effectiveContentType r.contentType
            if containsSub (strBytes "text/html") contentType then
              (⟨200, some (strBytes "text/html; charset=utf-8"),
                 some (strBytes "SAMEORIGIN"),
                 rewriteFn target (sanitize r.body)⟩, true)
            else
              (⟨200, some contentType, none, r.body⟩, true)

/-! ### Concrete fixtures for witnesses and counterexamples -/

/-- A base URL used in concrete instances. -/
def demoBase : List Nat := strBytes "https://example.com/"

/-- An absolute URL with characters that need escaping. -/
def demoAbs : List Nat := strBytes "https://example.com/a b?x=1"

/-- A relative reference used in concrete instances. -/
def demoRef : List Nat := strBytes "/a b?x=1"

/-- A resolver behaving like the platform URL constructor on the inputs the
concrete instances use: the empty reference resolves to the base URL (the
WHATWG URL parser accepts `new URL("", base)` and returns the base), and
`demoRef` resolves to `demoAbs`. -/
def demoResolve : Resolver := fun b v =>
  if v = [] then some b else if v = demoRef then some demoAbs else none

/-- A resolver that fails on every input. -/
def noneResolve : Resolver := fun _ _ => none

/-- A URL parser instance that accepts everything with hostname
`example.com`. -/
def demoParse : List Nat → Option ParsedUrl := fun _ => some ⟨strBytes "example.com"⟩

/-- The requested URL in the redirect scenario. -/
def startUrl : List Nat := strBytes "https://example.com/start"

/-- The final URL after the upstream redirect in the redirect scenario. -/
def finalUrl : List Nat := strBytes "https://other.example/final"

/-- A fetch instance whose response was redirected: the final resolved URL
differs from the requested one, and the payload is HTML. -/
def redirectFetch : List Nat → FetchResult := fun _ =>
  .ok ⟨finalUrl, some (strBytes "text/html"), strBytes "<p>x</p>"⟩

/-- A fetch instance returning a response whose content-type header is
present but empty. -/
def emptyCTFetch : List Nat → FetchResult := fun _ =>
  .ok ⟨startUrl, some [], strBytes "PNGBYTES"⟩

/-- A fetch instance returning a PNG response. -/
def pngFetch : List Nat → FetchResult := fun _ =>
  .ok ⟨startUrl, some (strBytes "image/png"), strBytes "PNGBYTES"⟩

/-- A fetch instance that throws (network failure). -/
def failFetch : List Nat → FetchResult := fun _ => .connectionError

/-- An identity stand-in for the sanitizer in orchestrator instances. -/
def idSanitize : List Nat → List Nat := fun s => s

/-- A probe rewriter that returns the base URL it was handed, exposing which
base the orchestrator passes to `rewriteHtml`. -/
def probeRewrite : List Nat → List Nat → List Nat := fun b _ => b

/-- A resolver instance that maps every reference to itself (already-absolute
references resolve to themselves). -/
def selfResolve : Resolver := fun _ v => some v

/-- A dangerous attribute value: leading whitespace and mixed case. -/
def dangerVal : List Nat := strBytes " JavaScript:alert(1)"

/-- A concrete anchor element carrying a relative reference. -/
def demoAnchor : Node :=
  Node.element (strBytes "a") [(strBytes "href", demoRef)] []

/-- A concrete parsed document with a DOCTYPE and comments outside the root
element. -/
def demoDoc : Document :=
  ⟨some (strBytes "html"), [strBytes "lead comment"],
   Node.element (strBytes "html") [] [Node.text (strBytes "hi")],
   [strBytes "trail comment"]⟩

/-- The same root element with no DOCTYPE and no outside content. -/
def demoDoc2 : Document :=
  ⟨none, [], Node.element (strBytes "html") [] [Node.text (strBytes "hi")], []⟩

/-! ## Theorems -/

/-- A hex digit character decodes back to its value. -/
theorem hexVal_hexDigit : ∀ n < 16, hexVal (hexDigit n) = some n := by decide

/-- The percent sign is escaped by encodeURIComponent. -/
theorem isUnreservedByte_percent : isUnreservedByte 37 = false := by decide

/-- Unfolding lemma: decoding a list whose head is not a percent sign keeps
the head. -/
theorem percentDecode_keep (b : Nat) (rest : List Nat) (hb : ¬ b = 37) :
    percentDecode (b :: rest) = (percentDecode rest).map (fun t => b :: t) := by
  match rest with
  | [] => simp [percentDecode, hb]
  | [x] => simp [percentDecode, hb]
  | x :: y :: rest2 => simp [percentDecode, hb]

/-- Unfolding lemma: decoding a well-formed escape produces its byte. -/
theorem percentDecode_escape (hd0 hl0 : Nat) (rest : List Nat) (hv lv : Nat)
    (h1 : hexVal hd0 = some hv) (h2 : hexVal hl0 = some lv) :
    percentDecode (37 :: hd0 :: hl0 :: rest) =
      (percentDecode rest).map (fun t => (16 * hv + lv) :: t) := by
  simp [percentDecode, h1, h2]

/-- Percent-decoding inverts percent-encoding on byte strings. -/
theorem percentDecode_encode (xs : List Nat) (h : ∀ x ∈ xs, x < 256) :
    percentDecode (encodeURIComponent xs) = some xs := by
  induction xs with
  | nil => rfl
  | cons b rest ih =>
    have hb : b < 256 := h b (by simp)
    have hrest : ∀ x ∈ rest, x < 256 := fun x hx => h x (by simp [hx])
    by_cases hu : isUnreservedByte b
    · have hb37 : ¬ b = 37 := by
        intro e
        rw [e] at hu
        exact absurd hu (by decide)
      simp only [encodeURIComponent]
      rw [if_pos hu]
      simp only [List.singleton_append]
      rw [percentDecode_keep b _ hb37, ih hrest]
      simp only [Option.map_some']
    · have h1 : b / 16 < 16 := by omega
      have h2 : b % 16 < 16 := by omega
      simp only [encodeURIComponent]
      rw [if_neg hu]
      simp only [List.cons_append, List.nil_append]
      rw [percentDecode_escape _ _ _ _ _ (hexVal_hexDigit _ h1) (hexVal_hexDigit _ h2),
        ih hrest]
      simp only [Option.map_some']
      have hdm : 16 * (b / 16) + b % 16 = b := by omega
      rw [hdm]

/-- Hex digit characters are never an ampersand or an equals sign. -/
theorem hexDigit_ne_sep (n : Nat) : hexDigit n ≠ 38 ∧ hexDigit n ≠ 61 := by
  unfold hexDigit
  split <;> omega

/-- No byte of an encoded component is an ampersand or an equals sign, so the
encoded URL occupies a single query parameter. -/
theorem encode_mem_ne_sep (A : List Nat) (c : Nat) (hc : c ∈ encodeURIComponent A) :
    c ≠ 38 ∧ c ≠ 61 := by
  induction A with
  | nil => simp [encodeURIComponent] at hc
  | cons b rest ih =>
    simp only [encodeURIComponent] at hc
    rcases List.mem_append.mp hc with h | h
    · by_cases hu : isUnreservedByte b
      · rw [if_pos hu] at h
        simp only [List.mem_singleton] at h
        subst h
        constructor <;> rintro rfl <;> exact absurd hu (by decide)
      · rw [if_neg hu] at h
        simp only [List.mem_cons, List.not_mem_nil, or_false] at h
        rcases h with h | h | h
        · subst h; exact ⟨by omega, by omega⟩
        · subst h; exact hexDigit_ne_sep _
        · subst h; exact hexDigit_ne_sep _
    · exact ih h

/-- C1 (as stated) fails at the empty attribute value: the platform URL
constructor resolves the empty reference against a base successfully
(`new URL("", base)` returns the base URL), yet `rewriteAttr` skips empty
values before resolving, leaving the attribute untouched instead of
rewritten. -/
theorem c1_counterexample :
    demoResolve demoBase [] = some demoBase ∧
    hasDangerScheme [] = false ∧
    rewriteAttr demoResolve demoBase [] = [] ∧
    rewriteAttr demoResolve demoBase [] ≠ proxyPath ++ encodeURIComponent demoBase := by
  refine ⟨rfl, rfl, rfl, ?_⟩
  decide

/-- C1 (amended: the attribute value is non-empty): whenever the resolver
succeeds on a non-empty, non-dangerous attribute value, the rewriter replaces
the value with the proxy endpoint path carrying the percent-encoded absolute
URL as a single query parameter (no byte of the parameter is a `&` or `=`),
and percent-decoding the parameter yields exactly the resolved absolute
URL. -/
theorem c1_rewrite_roundtrip (resolve : Resolver) (b r A : List Nat)
    (hne : r ≠ []) (hres : resolve b r = some A)
    (hdanger : hasDangerScheme r = false) (hbytes : ∀ x ∈ A, x < 256) :
    rewriteAttr resolve b r = proxyPath ++ encodeURIComponent A ∧
    percentDecode (encodeURIComponent A) = some A ∧
    ∀ c ∈ encodeURIComponent A, c ≠ 38 ∧ c ≠ 61 := by
  refine ⟨?_, percentDecode_encode A hbytes, fun c hc => encode_mem_ne_sep A c hc⟩
  simp [rewriteAttr, hne, hres, hdanger]

/-- C1 witness: a concrete relative reference with spaces, rewritten and
round-tripped. -/
theorem c1_witness :
    rewriteAttr demoResolve demoBase demoRef = proxyPath ++ encodeURIComponent demoAbs ∧
    percentDecode (encodeURIComponent demoAbs) = some demoAbs ∧
    ∀ c ∈ encodeURIComponent demoAbs, c ≠ 38 ∧ c ≠ 61 :=
  c1_rewrite_roundtrip demoResolve demoBase demoRef demoAbs (by decide) (by decide)
    (by decide) (by decide)

/-- Looking up an attribute after updating it applies the update to its
value. -/
theorem lookupAttr_updateAttr_self (name : List Nat) (f : List Nat → List Nat)
    (l : List (List Nat × List Nat)) :
    lookupAttr name (updateAttr name f l) = (lookupAttr name l).map f := by
  induction l with
  | nil => rfl
  | cons p rest ih =>
    obtain ⟨n, v⟩ := p
    by_cases h : n = name
    · simp [updateAttr, lookupAttr, h]
    · simp [updateAttr, lookupAttr, h, ih]

/-- C2: an attribute value matching the `javascript:`/`data:` test (leading
whitespace tolerated, case-insensitive) is never rewritten — `rewriteAttr`
returns it byte-identical for every resolver, and for each of the five target
element/attribute pairs the element's attribute survives the rewriting pass
unchanged. -/
theorem c2_danger_preserved (resolve : Resolver) (b val : List Nat)
    (h : hasDangerScheme val = true) :
    rewriteAttr resolve b val = val ∧
    ∀ tag attrs attrName, attrForTag tag = some attrName →
      lookupAttr attrName attrs = some val →
      lookupAttr attrName (rewriteElemAttrs resolve b tag attrs) = some val := by
  have h1 : rewriteAttr resolve b val = val := by
    unfold rewriteAttr
    split
    · rfl
    · cases hres : resolve b val with
      | none => rfl
      | some abs => simp [h]
  refine ⟨h1, fun tag attrs attrName htag hlook => ?_⟩
  unfold rewriteElemAttrs
  rw [htag, lookupAttr_updateAttr_self, hlook, Option.map_some', h1]

/-- C2 witness: a mixed-case `javascript:` value with leading whitespace on a
concrete anchor element, under a resolver that does resolve it. -/
theorem c2_witness :
    rewriteAttr selfResolve demoBase dangerVal = dangerVal ∧
    lookupAttr (strBytes "href")
      (rewriteElemAttrs selfResolve demoBase (strBytes "a")
        [(strBytes "href", dangerVal)]) = some dangerVal := by
  have h := c2_danger_preserved selfResolve demoBase dangerVal (by decide)
  exact ⟨h.1, h.2 (strBytes "a") [(strBytes "href", dangerVal)] (strBytes "href")
    (by decide) (by decide)⟩

/-- C5: with an empty allowlist every hostname is allowed; with a non-empty
allowlist a hostname is allowed exactly when it is a member (byte-exact, so
case-sensitive, no wildcard or subdomain matching). -/
theorem c5_isAllowedHost (allowed : List (List Nat)) (h : List Nat) :
    (allowed = [] → isAllowedHost allowed h = true) ∧
    (allowed ≠ [] → (isAllowedHost allowed h = true ↔ h ∈ allowed)) := by
  constructor
  · rintro rfl
    rfl
  · intro hne
    unfold isAllowedHost
    rw [if_neg (by simpa [List.length_eq_zero] using hne)]
    simp [List.contains, List.elem_iff]

/-- C5 witness: concrete allowlists. -/
theorem c5_witness :
    isAllowedHost [strBytes "example.com"] (strBytes "example.com") = true ∧
    isAllowedHost [strBytes "example.com"] (strBytes "evil.com") = false ∧
    isAllowedHost [] (strBytes "evil.example") = true := by
  have h1 := (c5_isAllowedHost [strBytes "example.com"] (strBytes "example.com")).2
    (by decide)
  have h2 := (c5_isAllowedHost [strBytes "example.com"] (strBytes "evil.com")).2
    (by decide)
  have h3 := (c5_isAllowedHost [] (strBytes "evil.example")).1 rfl
  refine ⟨h1.mpr (by decide), ?_, h3⟩
  have := mt h2.mp (by decide)
  simpa using this

/-- Link rewriting distributes over concatenation of sibling lists. -/
theorem rewriteList_append (resolve : Resolver) (b : List Nat) (xs ys : List Node) :
    rewriteList resolve b (xs ++ ys) =
      rewriteList resolve b xs ++ rewriteList resolve b ys := by
  induction xs with
  | nil => simp [rewriteList]
  | cons n rest ih => cases n <;> simp [rewriteList, ih]

/-- C7: resolution failure is local and non-fatal — when the resolver returns
`none` the attribute value is left untouched (the source resolver wraps the
URL constructor in try/catch, so failure surfaces only as `none`, modelled by
the total `Option`-valued resolver), and rewriting one node never affects how
the surrounding siblings are processed. -/
theorem c7_resolution_failure_local (resolve : Resolver) :
    (∀ b v, resolve b v = none → rewriteAttr resolve b v = v) ∧
    (∀ (b : List Nat) (pre post : List Node) (n : Node),
      rewriteList resolve b (pre ++ n :: post) =
        rewriteList resolve b pre ++ rewriteList resolve b [n] ++
          rewriteList resolve b post) := by
  constructor
  · intro b v hres
    unfold rewriteAttr
    split
    · rfl
    · rw [hres]
  · intro b pre post n
    have h1 : n :: post = [n] ++ post := rfl
    rw [rewriteList_append, h1, rewriteList_append]
    simp [List.append_assoc]

/-- C7 witness: a failing resolver leaves a concrete value untouched, and a
concrete sibling decomposition processes independently. -/
theorem c7_witness :
    rewriteAttr noneResolve demoBase demoRef = demoRef ∧
    rewriteList noneResolve demoBase ([Node.text (strBytes "t")] ++ demoAnchor :: []) =
      rewriteList noneResolve demoBase [Node.text (strBytes "t")] ++
        rewriteList noneResolve demoBase [demoAnchor] ++
        rewriteList noneResolve demoBase [] := by
  have h := c7_resolution_failure_local noneResolve
  exact ⟨h.1 demoBase demoRef rfl, h.2 demoBase [Node.text (strBytes "t")] [] demoAnchor⟩

/-- C3 (as stated) fails on the code: in a run where the upstream fetch was
redirected (its final resolved URL differs from the requested target), the
handler still passes the originally requested target URL to `rewriteHtml` as
the rewriting base — the probe rewriter returns the base it received, and the
response body shows the requested URL, not the fetch's final URL. -/
theorem c3_counterexample :
    redirectFetch startUrl =
      FetchResult.ok ⟨finalUrl, some (strBytes "text/html"), strBytes "<p>x</p>"⟩ ∧
    (proxyBackend demoParse redirectFetch idSanitize probeRewrite []
        (some startUrl)).1.body = startUrl ∧
    startUrl ≠ finalUrl := by
  refine ⟨rfl, by decide, by decide⟩

/-- C3 (amended): the base URL used for link rewriting is the originally
requested target URL (the `url` query parameter), not the final resolved URL
of the upstream fetch — for every fetch outcome `r`, whatever `r.url` is, the
HTML path rewrites with the requested target as base. -/
theorem c3_base_is_requested_url (parse : List Nat → Option ParsedUrl)
    (fetch : List Nat → FetchResult) (san : List Nat → List Nat)
    (rew : List Nat → List Nat → List Nat) (hosts : List (List Nat))
    (target : List Nat) (p : ParsedUrl) (r : UpstreamResponse)
    (ht : ¬ target = []) (hp : parse target = some p)
    (ha : isAllowedHost hosts p.hostname = true)
    (hf : fetch target = FetchResult.ok r)
    (hct : containsSub (strBytes "text/html") (effectiveContentType r.contentType) = true) :
    (proxyBackend parse fetch san rew hosts (some target)).1.body =
      rew target (san r.body) := by
  simp [proxyBackend, ht, hp, ha, hf, hct]

/-- C3 witness for the amended statement: the redirected fetch instance. -/
theorem c3_witness :
    (proxyBackend demoParse redirectFetch idSanitize probeRewrite []
        (some startUrl)).1.body =
      probeRewrite startUrl (idSanitize (strBytes "<p>x</p>")) :=
  c3_base_is_requested_url demoParse redirectFetch idSanitize probeRewrite []
    startUrl ⟨strBytes "example.com"⟩
    ⟨finalUrl, some (strBytes "text/html"), strBytes "<p>x</p>"⟩
    (by decide) rfl (by decide) rfl (by decide)

/-- C4: the endpoint's failure statuses — a missing or empty or unparseable
`url` parameter yields 400; a parseable URL whose hostname fails the
allowlist yields 403 with no upstream fetch attempted; a network failure of
the upstream fetch yields 502; and every run of the endpoint ends in status
200, 400, 403 or 502, so these are the only failure statuses. -/
theorem c4_failure_statuses (parse : List Nat → Option ParsedUrl)
    (fetch : List Nat → FetchResult) (san : List Nat → List Nat)
    (rew : List Nat → List Nat → List Nat) (hosts : List (List Nat))
    (urlParam : Option (List Nat)) :
    ((urlParam = none ∨ urlParam = some []) →
      (proxyBackend parse fetch san rew hosts urlParam).1.status = 400) ∧
    (∀ t, urlParam = some t → ¬ t = [] → parse t = none →
      (proxyBackend parse fetch san rew hosts urlParam).1.status = 400) ∧
    (∀ t p, urlParam = some t → ¬ t = [] → parse t = some p →
      isAllowedHost hosts p.hostname = false →
      (proxyBackend parse fetch san rew hosts urlParam).1.status = 403 ∧
      (proxyBackend parse fetch san rew hosts urlParam).2 = false) ∧
    (∀ t p, urlParam = some t → ¬ t = [] → parse t = some p →
      isAllowedHost hosts p.hostname = true →
      fetch t = FetchResult.connectionError →
      (proxyBackend parse fetch san rew hosts urlParam).1.status = 502) ∧
    ((proxyBackend parse fetch san rew hosts urlParam).1.status = 200 ∨
     (proxyBackend parse fetch san rew hosts urlParam).1.status = 400 ∨
     (proxyBackend parse fetch san rew hosts urlParam).1.status = 403 ∨
     (proxyBackend parse fetch san rew hosts urlParam).1.status = 502) := by
  refine ⟨?_, ?_, ?_, ?_, ?_⟩
  · rintro (rfl | rfl) <;> simp [proxyBackend]
  · rintro t rfl ht hp
    simp [proxyBackend, ht, hp]
  · rintro t p rfl ht hp ha
    simp [proxyBackend, ht, hp, ha]
  · rintro t p rfl ht hp ha hf
    simp [proxyBackend, ht, hp, ha, hf]
  · cases urlParam with
    | none => simp [proxyBackend]
    | some t =>
      by_cases ht : t = []
      · simp [proxyBackend, ht]
      · cases hp : parse t with
        | none => simp [proxyBackend, ht, hp]
        | some p =>
          cases ha : isAllowedHost hosts p.hostname with
          | false => simp [proxyBackend, ht, hp, ha]
          | true =>
            cases hf : fetch t with
            | connectionError => simp [proxyBackend, ht, hp, ha, hf]
            | ok r =>
              cases hct : containsSub (strBytes "text/html")
                  (effectiveContentType r.contentType) with
              | false => simp [proxyBackend, ht, hp, ha, hf, hct]
              | true => simp [proxyBackend, ht, hp, ha, hf, hct]

/-- C4 witness: a host outside a non-empty allowlist is refused with 403 and
the fetch is never attempted. -/
theorem c4_witness :
    (proxyBackend demoParse pngFetch idSanitize probeRewrite
        [strBytes "allowed.com"] (some startUrl)).1.status = 403 ∧
    (proxyBackend demoParse pngFetch idSanitize probeRewrite
        [strBytes "allowed.com"] (some startUrl)).2 = false :=
  (c4_failure_statuses demoParse pngFetch idSanitize probeRewrite
      [strBytes "allowed.com"] (some startUrl)).2.2.1 startUrl
    ⟨strBytes "example.com"⟩ rfl (by decide) rfl (by decide)

/-- C9 (as stated) fails when the upstream response carries a present but
empty content-type header: the empty string is falsy in JavaScript, so the
handler substitutes `application/octet-stream` instead of copying the header
verbatim (the body is still copied verbatim). -/
theorem c9_counterexample :
    emptyCTFetch startUrl = FetchResult.ok ⟨startUrl, some [], strBytes "PNGBYTES"⟩ ∧
    containsSub (strBytes "text/html") [] = false ∧
    (proxyBackend demoParse emptyCTFetch idSanitize probeRewrite []
        (some startUrl)).1.contentType = some (strBytes "application/octet-stream") ∧
    some (strBytes "application/octet-stream") ≠ some ([] : List Nat) := by
  refine ⟨rfl, by decide, by decide, by decide⟩

/-- C9 (amended: the upstream content-type header is present and non-empty):
on the passthrough path the body is copied byte-identically, the status is
200, and the content-type is copied verbatim; a missing or empty header is
replaced by `application/octet-stream`. -/
theorem c9_passthrough (parse : List Nat → Option ParsedUrl)
    (fetch : List Nat → FetchResult) (san : List Nat → List Nat)
    (rew : List Nat → List Nat → List Nat) (hosts : List (List Nat))
    (target : List Nat) (p : ParsedUrl) (r : UpstreamResponse) (s : List Nat)
    (ht : ¬ target = []) (hp : parse target = some p)
    (ha : isAllowedHost hosts p.hostname = true)
    (hf : fetch target = FetchResult.ok r)
    (hcts : r.contentType = some s) (hs : ¬ s = [])
    (hnh : containsSub (strBytes "text/html") s = false) :
    (proxyBackend parse fetch san rew hosts (some target)).1.status = 200 ∧
    (proxyBackend parse fetch san rew hosts (some target)).1.body = r.body ∧
    (proxyBackend parse fetch san rew hosts (some target)).1.contentType = some s := by
  have hect : effectiveContentType r.contentType = s := by
    simp [effectiveContentType, hcts, hs]
  refine ⟨?_, ?_, ?_⟩ <;> simp [proxyBackend, ht, hp, ha, hf, hect, hnh]

/-- C9 witness: a PNG response passes through byte-identically with its
content-type preserved. -/
theorem c9_witness :
    (proxyBackend demoParse pngFetch idSanitize probeRewrite []
        (some startUrl)).1.status = 200 ∧
    (proxyBackend demoParse pngFetch idSanitize probeRewrite []
        (some startUrl)).1.body = strBytes "PNGBYTES" ∧
    (proxyBackend demoParse pngFetch idSanitize probeRewrite []
        (some startUrl)).1.contentType = some (strBytes "image/png") :=
  c9_passthrough demoParse pngFetch idSanitize probeRewrite [] startUrl
    ⟨strBytes "example.com"⟩ ⟨startUrl, some (strBytes "image/png"), strBytes "PNGBYTES"⟩
    (strBytes "image/png") (by decide) rfl (by decide) rfl rfl (by decide) (by decide)

/-- Attribute filtering is idempotent. -/
theorem cleanAttrs_idem (a : List (List Nat × List Nat)) :
    cleanAttrs (cleanAttrs a) = cleanAttrs a := by
  simp [cleanAttrs, List.filter_filter]

/-- C6: the sanitizer is idempotent — sanitizing an already-sanitized
document forest changes nothing.  (`spec-modelled`: DOMPurify is an external
dependency; the sanitizer is modelled from the spec at the parsed-document
level, where DOMPurify operates between its parse and serialize halves.) -/
theorem c6_sanitize_idempotent (ns : List Node) :
    sanitizeList (sanitizeList ns) = sanitizeList ns := by
  induction ns using sanitizeList.induct with
  | case1 => simp [sanitizeList]
  | case2 s rest ih => simp [sanitizeList, ih]
  | case3 t a k rest hd ih => simp [sanitizeList, hd, ih]
  | case4 t a k rest hd ihk ihrest => simp [sanitizeList, hd, ihk, ihrest, cleanAttrs_idem]

/-- Removing CSP metas really removes every one of them, at any depth. -/
theorem hasCSP_removeCSP (ns : List Node) : hasCSPList (removeCSP ns) = false := by
  induction ns using removeCSP.induct with
  | case1 => simp [removeCSP, hasCSPList]
  | case2 s rest ih => simp [removeCSP, hasCSPList, ih]
  | case3 t a k rest hcsp ihrest => simp [removeCSP, hcsp, ihrest]
  | case4 t a k rest hcsp ihk ihrest => simp [removeCSP, hcsp, hasCSPList, ihk, ihrest]

/-- C8: the tree serialized by `rewriteHtml` contains no meta element whose
`http-equiv` attribute equals `Content-Security-Policy`, for every input
document, resolver and base URL: the removal pass runs after the rewriting
passes and strips them all at every depth. -/
theorem c8_no_csp_meta (resolve : Resolver) (b : List Nat) (d : Document) :
    hasCSPList (rewrittenNodes resolve b d) = false := by
  unfold rewrittenNodes
  exact hasCSP_removeCSP _

/-- C10: `rewriteHtml` returns exactly the serialization of the (rewritten)
root element — `documentElement.outerHTML`.  The output is independent of the
document's DOCTYPE and of content outside the root element, and never begins
with a DOCTYPE declaration (`<!`), provided the root tag is non-empty and
contains no `!`. -/
theorem c10_output_is_root_serialization (resolve : Resolver) (b : List Nat)
    (d d' : Document) (t : List Nat) (a : List (List Nat × List Nat))
    (k : List Node) (hroot : d.root = Node.element t a k) (hsame : d'.root = d.root)
    (hne : ¬ t = []) (hbang : 33 ∉ t) :
    rewriteHtmlDoc resolve b d =
      serializeList (removeCSP (rewriteList resolve b [d.root])) ∧
    rewriteHtmlDoc resolve b d' = rewriteHtmlDoc resolve b d ∧
    leadsWith (strBytes "<!") (rewriteHtmlDoc resolve b d) = false := by
  refine ⟨rfl, ?_, ?_⟩
  · unfold rewriteHtmlDoc rewrittenNodes
    rw [hsame]
  · unfold rewriteHtmlDoc rewrittenNodes
    rw [hroot]
    have hlt : strBytes "<!" = [60, 33] := by decide
    rw [hlt]
    simp only [rewriteList]
    cases hcsp : isCSPMeta t (rewriteElemAttrs resolve b t a) with
    | true => simp [removeCSP, hcsp, serializeList, leadsWith]
    | false =>
      cases t with
      | nil => exact absurd rfl hne
      | cons c t2 =>
        have hc : ¬ 33 = c := by
          intro e
          exact hbang (e ▸ List.mem_cons_self c t2)
        simp [removeCSP, hcsp, serializeList, leadsWith, hc]

/-- C10 witness: a concrete document with a DOCTYPE and comments outside the
root, against the same root with none. -/
theorem c10_witness :
    rewriteHtmlDoc noneResolve demoBase demoDoc =
      serializeList (removeCSP (rewriteList noneResolve demoBase [demoDoc.root])) ∧
    rewriteHtmlDoc noneResolve demoBase demoDoc2 =
      rewriteHtmlDoc noneResolve demoBase demoDoc ∧
    leadsWith (strBytes "<!") (rewriteHtmlDoc noneResolve demoBase demoDoc) = false :=
  c10_output_is_root_serialization noneResolve demoBase demoDoc demoDoc2
    (strBytes "html") [] [Node.text (strBytes "hi")] rfl rfl (by decide) (by decide)

end Proxy
